import Mathlib

/-!
Shallow embedding of the cypress-parallel GitHub action core:
config-file location (CypressBaseConfigParser.getConfigFile / glob),
the modern script-config adapter (CypressConfigParser.processConfig /
parseTests), the legacy JSON adapter (Cypress9ConfigParser), adapter
selection (parserFactory), the orchestrating parse() entry point and
test grouping (createTestGroups).

Modelling conventions:
* JavaScript numbers reaching createTestGroups are either NaN (Number of a
  non-numeric input) or exact small values; they are modelled by `JSNumber`
  with a rational payload (all arithmetic performed on them here -
  Math.ceil(length / count), Math.floor(index / chunk) - is exact for the
  magnitudes involved, so ℚ is a faithful model).
* Exceptions are modelled by `Except String`; a `.error` corresponds to a
  thrown JS exception caught by the enclosing try/catch.
* The filesystem, the minimatch engine, `require`, the TypeScript
  transpiler and JSON.parse are external collaborators; they are fields of
  `Env` (uninterpreted functions), and every repository function is
  parameterised by an `Env`.  `Env.listFiles root` models the recursive
  `listFiles` traversal of `glob`, `Env.minimatch f p` models
  `minimatch(f, p, {dot: true, matchBase: true})`.
* `pathJoin` is a minimal model of Node's path.join for the shapes used
  here: an empty segment is the identity, otherwise segments are joined
  with "/". (Node's dot/dot-dot normalisation is not modelled; no claim
  depends on it.)
-/

/-- A JavaScript number as consumed by `createTestGroups`: NaN (e.g.
`Number("")` is 0 but `Number("abc")` is NaN) or an exact value. -/
inductive JSNumber where
  | nan : JSNumber
  | num (q : ℚ) : JSNumber
deriving DecidableEq

/-- A Cypress spec pattern field: a single glob string or a list of glob
strings (`string | string[]` in the source). -/
inductive SpecPattern where
  | str (s : String) : SpecPattern
  | arr (l : List String) : SpecPattern
deriving DecidableEq, Repr

/-- Normalisation `Array.isArray(p) ? p : [p]` used throughout the source. -/
def specPatternToList (p : SpecPattern) : List String :=
  match p with
  | SpecPattern.str s => [s]
  | SpecPattern.arr l => l

/-- JS truthiness of an optional `string | string[]` value, as tested by
`if (excludeSpecPattern)`: undefined and the empty string are falsy, any
other string and every array (including the empty array) are truthy. -/
def jsTruthySpec (o : Option SpecPattern) : Bool :=
  match o with
  | none => false
  | some (SpecPattern.str s) => !(s == "")
  | some (SpecPattern.arr _) => true

/-- JS truthiness of an optional string (`if (config.componentFolder)`). -/
def jsTruthyStr (o : Option String) : Bool :=
  match o with
  | none => false
  | some s => !(s == "")

/-- The ignore list handed to `glob` by `parseTestOfType`: the normalised
exclude patterns when `excludeSpecPattern` is truthy, otherwise the `glob`
default `[]`. -/
def toIgnoreList (o : Option SpecPattern) : List String :=
  if jsTruthySpec o then specPatternToList (o.getD (SpecPattern.arr [])) else []

/-- One category section of a raw modern config (`e2e` or `component`),
with both fields optional. -/
structure CategoryConfig where
  specPattern : Option SpecPattern
  excludeSpecPattern : Option SpecPattern
deriving DecidableEq, Repr

/-- A raw modern (script-based) Cypress config object as returned by
`require`, before default resolution. -/
structure RawCypressConfig where
  e2e : Option CategoryConfig
  component : Option CategoryConfig
deriving DecidableEq, Repr

/-- The object exported by a loaded config module: either the config
itself or a transpiled-TypeScript wrapper carrying it under a `default`
key (`if ("default" in rawConfig)`). -/
inductive ModuleExport where
  | plain (c : RawCypressConfig) : ModuleExport
  | wrapped (c : RawCypressConfig) : ModuleExport
deriving DecidableEq, Repr

/-- Unwrapping of the `default` key. -/
def unwrapModule (m : ModuleExport) : RawCypressConfig :=
  match m with
  | ModuleExport.plain c => c
  | ModuleExport.wrapped c => c

/-- One fully resolved category of the modern config. -/
structure ResolvedCategory where
  specPattern : List String
  excludeSpecPattern : List String
deriving DecidableEq, Repr

/-- The resolved modern `CypressConfig` produced by `processConfig`. -/
structure CypressConfig where
  e2e : ResolvedCategory
  component : ResolvedCategory
deriving DecidableEq, Repr

/-- A raw legacy `cypress.json` object (all keys optional in the file). -/
structure Cypress9RawConfig where
  componentFolder : Option String
  ignoreTestFiles : Option SpecPattern
  integrationFolder : Option String
  testFiles : Option SpecPattern
deriving DecidableEq, Repr

/-- The legacy config after the default spread
`{integrationFolder: D, testFiles: D, ...config}`. -/
structure Cypress9Config where
  componentFolder : Option String
  ignoreTestFiles : Option SpecPattern
  integrationFolder : String
  testFiles : SpecPattern
deriving DecidableEq, Repr

/-- The unified output payload: `componentTests` is `none` exactly when the
JS value is `undefined`, `some l` when it is the array `l`. -/
structure TestFiles where
  integrationTests : List String
  componentTests : Option (List String)
deriving DecidableEq, Repr

/-- Observable outcome of one `parse()` invocation: the `setFailed`
message, if any, and the ordered `setOutput` calls. -/
structure RunResult where
  failed : Option String
  outputs : List (String × List String)
deriving DecidableEq, Repr

/-- External collaborators of one invocation (filesystem, minimatch,
module loading, transpilation, JSON parsing) plus `process.cwd()`. -/
structure Env where
  processCwd : String
  existsSync : String → Bool
  listFiles : String → List String
  minimatch : String → String → Bool
  requireModule : String → Except String ModuleExport
  transpileModule : String → Except String String
  readJsonConfig : String → Except String Cypress9RawConfig

/-- Minimal model of Node's `path.join` for the segment shapes used in the
repository (an empty segment is the identity, otherwise "/"-joining). -/
def pathJoin (a b : String) : String :=
  if a = "" then b else if b = "" then a else a ++ "/" ++ b

/-- `CypressBaseConfigParser.glob`: empty result for a missing root,
otherwise the listed files filtered by the include patterns
(`pattern.some(p => minimatch(f, p, ...))`) and then by each negated
ignore pattern in turn. -/
def glob (env : Env) (root : String) (pattern : List String)
    (ignorePattern : List String) : List String :=
  if env.existsSync root then
    let files := env.listFiles root
    let files := files.filter (fun f => pattern.any (fun p => env.minimatch f p))
    ignorePattern.foldl (fun acc p => acc.filter (fun f => !(env.minimatch f p))) files
  else
    []

/-- `getWorkingDirectory`: `workingDirectory ? workingDirectory :
process.cwd()` (the empty string is the falsy "unset" input). -/
def getWorkingDirectory (env : Env) (workingDirectory : String) : String :=
  if workingDirectory = "" then env.processCwd else workingDirectory

/-- `CypressBaseConfigParser.getConfigFile`: glob the working directory for
the schema's candidate filenames; zero matches or more than one match
yield null (the ambiguous case is logged first), a unique match is joined
onto the given `workingDirectory` argument. -/
def getConfigFile (env : Env) (validConfigFileNames : List String)
    (workingDirectory : String) : Option String :=
  let cwd := getWorkingDirectory env workingDirectory
  let results := glob env cwd validConfigFileNames []
  if results.length = 0 then none
  else if 1 < results.length then none
  else (results[0]?).map (fun r => pathJoin workingDirectory r)

/-- `CypressBaseConfigParser.hasConfigFile`. -/
def hasConfigFile (env : Env) (validConfigFileNames : List String)
    (workingDirectory : String) : Bool :=
  (getConfigFile env validConfigFileNames workingDirectory).isSome

/-- `CypressBaseConfigParser.parseTestOfType`: normalise the include and
(optional) exclude patterns, glob under `workingDirectory/testFolder`, and
re-prefix every result with the test folder. -/
def parseTestOfType (env : Env) (workingDirectory testFolder : String)
    (specPattern : SpecPattern) (excludeSpecPattern : Option SpecPattern) :
    List String :=
  let filePatterns := specPatternToList specPattern
  let ignoreFilePatterns := toIgnoreList excludeSpecPattern
  let files := glob env (pathJoin workingDirectory testFolder) filePatterns ignoreFilePatterns
  files.map (fun f => pathJoin testFolder f)

/-- `CypressConfigParser.DEFAULT_EXCLUDE_SPEC_PATTERNS`. -/
def DEFAULT_EXCLUDE_SPEC_PATTERNS : List String := ["**/node_modules/**"]

/-- Default e2e include pattern of the modern schema. -/
def DEFAULT_E2E_SPEC_PATTERN : List String :=
  ["cypress/e2e/**/*.cy.\x7bjs,jsx,ts,tsx\x7d"]

/-- Default component include pattern of the modern schema. -/
def DEFAULT_COMPONENT_SPEC_PATTERN : List String :=
  ["**/*.cy.\x7bjs,jsx,ts,tsx\x7d"]

/-- Resolution of `e2eSpecPattern` in `processConfig`: the user pattern
(normalised) when given, the fixed e2e default otherwise. -/
def resolvedE2eSpecPattern (config : RawCypressConfig) : List String :=
  match config.e2e with
  | some cc =>
    match cc.specPattern with
    | some p => specPatternToList p
    | none => DEFAULT_E2E_SPEC_PATTERN
  | none => DEFAULT_E2E_SPEC_PATTERN

/-- Resolution of `e2eExcludeSpecPattern` in `processConfig`: the
node-modules default plus either the user's exclude patterns or the
hot-update default. -/
def resolvedE2eExcludePattern (config : RawCypressConfig) : List String :=
  match config.e2e with
  | some cc =>
    match cc.excludeSpecPattern with
    | some p => DEFAULT_EXCLUDE_SPEC_PATTERNS ++ specPatternToList p
    | none => DEFAULT_EXCLUDE_SPEC_PATTERNS ++ ["*.hot-update.js"]
  | none => DEFAULT_EXCLUDE_SPEC_PATTERNS ++ ["*.hot-update.js"]

/-- Resolution of `componentSpecPattern` in `processConfig`. -/
def resolvedComponentSpecPattern (config : RawCypressConfig) : List String :=
  match config.component with
  | some cc =>
    match cc.specPattern with
    | some p => specPatternToList p
    | none => DEFAULT_COMPONENT_SPEC_PATTERN
  | none => DEFAULT_COMPONENT_SPEC_PATTERN

/-- Resolution of `componentExcludeSpecPattern` in `processConfig`: always
the node-modules default followed by the RESOLVED e2e include patterns,
then either the user's exclude patterns or the two snapshot-directory
defaults. -/
def resolvedComponentExcludePattern (config : RawCypressConfig) : List String :=
  match config.component with
  | some cc =>
    match cc.excludeSpecPattern with
    | some p =>
      DEFAULT_EXCLUDE_SPEC_PATTERNS ++ resolvedE2eSpecPattern config
        ++ specPatternToList p
    | none =>
      DEFAULT_EXCLUDE_SPEC_PATTERNS ++ resolvedE2eSpecPattern config
        ++ ["/snapshots/*", "/image_snapshots/*"]
  | none =>
    DEFAULT_EXCLUDE_SPEC_PATTERNS ++ resolvedE2eSpecPattern config
      ++ ["/snapshots/*", "/image_snapshots/*"]

/-- The pure default-resolution part of `CypressConfigParser.processConfig`
(everything after `require` and the `default`-key unwrap), assembled from
the four per-field resolutions above. -/
def resolveConfig (m : ModuleExport) : CypressConfig :=
  let config := unwrapModule m
  ⟨⟨resolvedE2eSpecPattern config, resolvedE2eExcludePattern config⟩,
   ⟨resolvedComponentSpecPattern config, resolvedComponentExcludePattern config⟩⟩

/-- `CypressConfigParser.processConfig`: null path check, `require` of the
config module (which may throw), `default`-key unwrap and default
resolution. -/
def processConfig (env : Env) (configFilePath : Option String) :
    Except String CypressConfig :=
  match configFilePath with
  | none => Except.error "no supported config file found."
  | some p => (env.requireModule p).map resolveConfig

/-- Filenames accepted by `CypressTSConfigParser`. -/
def VALID_CONFIG_FILE_NAMES_TS : List String := ["cypress.config.ts"]

/-- Filenames accepted by `CypressJSConfigParser`. -/
def VALID_CONFIG_FILE_NAMES_JS : List String :=
  ["cypress.config.js", "cypress.config.mjs", "cypress.config.cjs"]

/-- Filenames accepted by `Cypress9ConfigParser`. -/
def VALID_CONFIG_FILE_NAMES_9 : List String := ["cypress.json"]

/-- `CypressJSConfigParser.loadConfig`. -/
def cypressJSLoadConfig (env : Env) (workingDirectory : String) :
    Except String CypressConfig :=
  match getConfigFile env VALID_CONFIG_FILE_NAMES_JS workingDirectory with
  | some p => processConfig env (some p)
  | none => Except.error "no supported config file found."

/-- `CypressTSConfigParser.loadConfig`: locate, transpile (the transpiler
is a black box that yields the temp JS path or throws on diagnostics),
then process the transpiled module. -/
def cypressTSLoadConfig (env : Env) (workingDirectory : String) :
    Except String CypressConfig :=
  match getConfigFile env VALID_CONFIG_FILE_NAMES_TS workingDirectory with
  | some p =>
    match env.transpileModule p with
    | Except.error e => Except.error e
    | Except.ok jsConfigFilePath => processConfig env (some jsConfigFilePath)
  | none => Except.error "no supported config file found."

/-- `CypressConfigParser.parseTests` (shared by the TS and JS adapters):
on any load exception return the all-empty TestFiles
`{integrationTests: [], componentTests: []}`; otherwise glob both
categories with an empty test folder. -/
def cypressConfigParseTests (env : Env) (workingDirectory : String)
    (loadResult : Except String CypressConfig) : TestFiles :=
  match loadResult with
  | Except.error _ => ⟨[], some []⟩
  | Except.ok config =>
    let integrationTests :=
      parseTestOfType env workingDirectory ""
        (SpecPattern.arr config.e2e.specPattern)
        (some (SpecPattern.arr config.e2e.excludeSpecPattern))
    let componentTests :=
      parseTestOfType env workingDirectory ""
        (SpecPattern.arr config.component.specPattern)
        (some (SpecPattern.arr config.component.excludeSpecPattern))
    ⟨integrationTests, some componentTests⟩

/-- The legacy default spread
`{integrationFolder: DEFAULT, testFiles: DEFAULT, ...config}`. -/
def mergeCypress9Defaults (raw : Cypress9RawConfig) : Cypress9Config :=
  ⟨raw.componentFolder, raw.ignoreTestFiles,
   raw.integrationFolder.getD "cypress/integration",
   raw.testFiles.getD (SpecPattern.str "**/*.*")⟩

/-- `Cypress9ConfigParser.loadConfig`: locate `cypress.json`, read and
JSON-parse it (both may throw), then apply the default spread. -/
def cypress9LoadConfig (env : Env) (workingDirectory : String) :
    Except String Cypress9Config :=
  match getConfigFile env VALID_CONFIG_FILE_NAMES_9 workingDirectory with
  | some p => (env.readJsonConfig p).map mergeCypress9Defaults
  | none => Except.error "no supported config file found."

/-- `Cypress9ConfigParser.parseTests`: on any load exception return the
all-empty TestFiles; otherwise glob the integration folder always and the
component folder only when `config.componentFolder` is truthy. -/
def cypress9ParseTests (env : Env) (workingDirectory : String) : TestFiles :=
  match cypress9LoadConfig env workingDirectory with
  | Except.error _ => ⟨[], some []⟩
  | Except.ok config =>
    let integrationTests :=
      parseTestOfType env workingDirectory config.integrationFolder
        config.testFiles config.ignoreTestFiles
    let componentTests :=
      if jsTruthyStr config.componentFolder then
        some (parseTestOfType env workingDirectory
          (config.componentFolder.getD "") config.testFiles config.ignoreTestFiles)
      else
        none
    ⟨integrationTests, componentTests⟩

/-- The closed set of adapters behind `parserFactory`. -/
inductive ParserKind where
  | ts : ParserKind
  | js : ParserKind
  | cypress9 : ParserKind
deriving DecidableEq, Repr

/-- `parserFactory`: fixed-precedence adapter selection on the raw
`working-directory` input. -/
def parserFactory (env : Env) (workingDirectory : String) : Option ParserKind :=
  if hasConfigFile env VALID_CONFIG_FILE_NAMES_TS workingDirectory then
    some ParserKind.ts
  else if hasConfigFile env VALID_CONFIG_FILE_NAMES_JS workingDirectory then
    some ParserKind.js
  else if hasConfigFile env VALID_CONFIG_FILE_NAMES_9 workingDirectory then
    some ParserKind.cypress9
  else
    none

/-- Dispatch of `parser.parseTests()`: the constructed parser instance
resolves the raw working directory against `process.cwd()` once
(`CypressBaseConfigParser`'s constructor) and its methods use the resolved
directory. -/
def parseTestsOf (env : Env) (parser : ParserKind)
    (rawWorkingDirectory : String) : TestFiles :=
  let wd := getWorkingDirectory env rawWorkingDirectory
  match parser with
  | ParserKind.ts => cypressConfigParseTests env wd (cypressTSLoadConfig env wd)
  | ParserKind.js => cypressConfigParseTests env wd (cypressJSLoadConfig env wd)
  | ParserKind.cypress9 => cypress9ParseTests env wd

/-- The JS sparse-array assignment
`if (!groups[chunkIndex]) groups[chunkIndex] = []; groups[chunkIndex].push(item)`
of the reduce body in `createTestGroups`.  An index beyond the current
length pads with fresh empty groups (in the reduce the chunk indices are
consecutive, so the padding is always empty). -/
def addToGroups (groups : List (List String)) (item : String)
    (chunkIndex : ℕ) : List (List String) :=
  if h : chunkIndex < groups.length then
    groups.set chunkIndex (groups.get ⟨chunkIndex, h⟩ ++ [item])
  else
    groups ++ List.replicate (chunkIndex - groups.length) [] ++ [[item]]

/-- `createTestGroups`: invalid counts (NaN or ≤ 0) return the tests
unchanged; otherwise the tests are reduced into chunks of
`Math.ceil(tests.length / groupCount)` by `Math.floor(index / chunkSize)`
and each chunk is joined with ",".  (`index / 0` is only reachable for an
empty test list, where the reduce body never runs.) -/
def createTestGroups (groupCount : JSNumber) (tests : List String) :
    List String :=
  match groupCount with
  | JSNumber.nan => tests
  | JSNumber.num q =>
    if q ≤ 0 then tests
    else
      let testCountByChunk : ℕ := (⌈(tests.length : ℚ) / q⌉).toNat
      ((tests.enum).foldl
          (fun groups p => addToGroups groups p.2 (p.1 / testCountByChunk))
          []).map
        (fun group => String.intercalate "," group)

/-- `parse()` of parsing.ts: select an adapter (failing with the exact
no-config message when none matches), obtain the test files, signal the
exact no-tests failure when the integration list is empty and the
component list is absent or empty (`integrationTests.length === 0 &&
(!componentTests || componentTests?.length === 0)`), otherwise group and
emit the outputs, component only when present (`if (componentTests)`;
a present empty array is truthy). -/
def parse (env : Env) (workingDirectory : String)
    (countRunners : JSNumber) : RunResult :=
  match parserFactory env workingDirectory with
  | none => ⟨some "No supported Cypress config file found.", []⟩
  | some parser =>
    let tf := parseTestsOf env parser workingDirectory
    if (tf.integrationTests.length == 0)
        && (match tf.componentTests with
            | none => true
            | some componentTests => componentTests.length == 0) then
      ⟨some "No tests found", []⟩
    else
      let integrationTestGroups := createTestGroups countRunners tf.integrationTests
      match tf.componentTests with
      | none => ⟨none, [("integration-tests", integrationTestGroups)]⟩
      | some componentTests =>
        ⟨none, [("integration-tests", integrationTestGroups),
                ("component-tests", createTestGroups countRunners componentTests)]⟩

/-! ### Concrete environments used by the witnesses -/

/-- An environment with an empty filesystem and failing loaders. -/
def envEmpty : Env :=
  ⟨"/cwd", fun _ => false, fun _ => [], fun _ _ => false,
   fun _ => Except.error "require failed",
   fun _ => Except.error "transpile failed",
   fun _ => Except.error "json failed"⟩

/-- An environment holding exactly a legacy `cypress.json` that parses to
the empty object; the matcher is literal filename equality, so the default
catch-all test pattern matches nothing. -/
def env9NoTests : Env :=
  ⟨"/cwd", fun _ => true, fun _ => ["cypress.json"],
   fun f p => f == p,
   fun _ => Except.error "require failed",
   fun _ => Except.error "transpile failed",
   fun _ => Except.ok ⟨none, none, none, none⟩⟩

/-- Like `env9NoTests` but the matcher also accepts the default catch-all
pattern, so the integration category finds one file. -/
def env9WithTests : Env :=
  ⟨"/cwd", fun _ => true, fun _ => ["cypress.json"],
   fun f p => f == p || p == "**/*.*",
   fun _ => Except.error "require failed",
   fun _ => Except.error "transpile failed",
   fun _ => Except.ok ⟨none, none, none, none⟩⟩

/-- An environment holding exactly a modern `cypress.config.ts` that loads
to the empty config object; the matcher also accepts the resolved default
e2e include pattern, so the integration category is non-empty. -/
def envModern : Env :=
  ⟨"/cwd", fun _ => true, fun _ => ["cypress.config.ts"],
   fun f p => f == p || p == "cypress/e2e/**/*.cy.\x7bjs,jsx,ts,tsx\x7d",
   fun _ => Except.ok (ModuleExport.plain ⟨none, none⟩),
   fun _ => Except.ok "/tmp/cypress-parallel/cypress.config.js",
   fun _ => Except.error "json failed"⟩

/-- An environment holding exactly a modern `cypress.config.js` whose
module explicitly sets `e2e.specPattern` to the empty array. -/
def envEmptyPattern : Env :=
  ⟨"/cwd", fun _ => true, fun _ => ["cypress.config.js"],
   fun f p => f == p,
   fun _ => Except.ok
     (ModuleExport.plain ⟨some ⟨some (SpecPattern.arr []), none⟩, none⟩),
   fun _ => Except.error "transpile failed",
   fun _ => Except.error "json failed"⟩

/-! ### Specification-side chunking (for the grouping refinement claim)

`chunksSpec` is the spec's description of the grouping: partition a list
into contiguous chunks of size `c` in original order, the last chunk
possibly shorter.  `ceilDiv` is the spec's `ceil(a / b)` on naturals. -/

/-- Ceiling division on naturals, `ceil(a / b)`. -/
def ceilDiv (a b : ℕ) : ℕ := (a + b - 1) / b

/-- Spec-side contiguous chunking into chunks of size `c` (first element
plus the next `c - 1`, then recurse on the rest). -/
def chunksSpec (c : ℕ) : List String → List (List String)
  | [] => []
  | x :: xs => (x :: xs.take (c - 1)) :: chunksSpec c (xs.drop (c - 1))
termination_by l => l.length
decreasing_by simp only [List.length_drop, List.length_cons]; omega

theorem chunksSpec_nil (c : ℕ) : chunksSpec c [] = [] := by
  simp [chunksSpec]

theorem chunksSpec_cons (c : ℕ) (x : String) (xs : List String) :
    chunksSpec c (x :: xs)
      = (x :: xs.take (c - 1)) :: chunksSpec c (xs.drop (c - 1)) := by
  simp [chunksSpec]

theorem addToGroups_cons_succ (g : List String) (gs : List (List String))
    (x : String) (j : ℕ) :
    addToGroups (g :: gs) x (j + 1) = g :: addToGroups gs x j := by
  unfold addToGroups
  by_cases h : j < gs.length
  · rw [dif_pos (by simpa using Nat.succ_lt_succ h), dif_pos h]
    rfl
  · rw [dif_neg (by simpa using fun hh => h (Nat.lt_of_succ_lt_succ hh)), dif_neg h]
    simp [Nat.succ_sub_succ]

theorem chunksSpec_append_singleton (c : ℕ) (hc : 0 < c)
    (pre : List String) (x : String) :
    chunksSpec c (pre ++ [x])
      = addToGroups (chunksSpec c pre) x (pre.length / c) := by
  match pre with
  | [] =>
    simp [chunksSpec, addToGroups]
  | p :: ps =>
    rw [List.cons_append, chunksSpec_cons, chunksSpec_cons]
    by_cases hlen : ps.length + 1 < c
    · have h1 : ps.length ≤ c - 1 := by omega
      rw [List.take_of_length_le (by simp; omega),
          List.drop_eq_nil_of_le (by simp; omega),
          List.take_of_length_le h1, List.drop_eq_nil_of_le h1,
          chunksSpec_nil]
      have hz : (p :: ps).length / c = 0 :=
        Nat.div_eq_of_lt (by simp; omega)
      rw [hz]
      simp [addToGroups]
    · have h1 : c - 1 ≤ ps.length := by omega
      rw [List.take_append_of_le_length h1, List.drop_append_of_le_length h1]
      have ih := chunksSpec_append_singleton c hc (ps.drop (c - 1)) x
      rw [ih]
      have hdl : (ps.drop (c - 1)).length = ps.length + 1 - c := by
        simp; omega
      have hdiv : (p :: ps).length / c = (ps.length + 1 - c) / c + 1 := by
        have h2 : (p :: ps).length = (ps.length + 1 - c) + c := by simp; omega
        rw [h2, Nat.add_div_right _ hc]
      rw [hdiv, hdl, addToGroups_cons_succ]
termination_by pre.length
decreasing_by simp only [List.length_drop, List.length_cons]; omega

theorem foldl_addToGroups (c : ℕ) (hc : 0 < c) (l : List String) :
    ∀ pre : List String,
      (List.enumFrom pre.length l).foldl
          (fun gs p => addToGroups gs p.2 (p.1 / c)) (chunksSpec c pre)
        = chunksSpec c (pre ++ l) := by
  induction l with
  | nil => intro pre; simp
  | cons x xs ih =>
    intro pre
    rw [List.enumFrom_cons, List.foldl_cons]
    have h2 := ih (pre ++ [x])
    simp only [List.length_append, List.length_cons, List.length_nil,
      List.append_assoc, List.singleton_append, Nat.zero_add] at h2
    rw [chunksSpec_append_singleton c hc pre x] at h2
    exact h2

theorem foldl_addToGroups_enum (c : ℕ) (hc : 0 < c) (l : List String) :
    l.enum.foldl (fun gs p => addToGroups gs p.2 (p.1 / c)) []
      = chunksSpec c l := by
  have h := foldl_addToGroups c hc l []
  simpa [List.enum, chunksSpec_nil] using h

theorem chunksSpec_flatten (c : ℕ) (l : List String) :
    (chunksSpec c l).flatten = l := by
  match l with
  | [] => simp [chunksSpec_nil]
  | x :: xs =>
    rw [chunksSpec_cons]
    have ih := chunksSpec_flatten c (xs.drop (c - 1))
    simp [ih]
termination_by l.length
decreasing_by simp only [List.length_drop, List.length_cons]; omega

theorem chunksSpec_eq_nil_iff (c : ℕ) (l : List String) :
    chunksSpec c l = [] ↔ l = [] := by
  match l with
  | [] => simp [chunksSpec_nil]
  | x :: xs => rw [chunksSpec_cons]; simp

theorem chunksSpec_ne_nil (c : ℕ) (l : List String) (g : List String)
    (hg : g ∈ chunksSpec c l) : g ≠ [] := by
  match l with
  | [] => rw [chunksSpec_nil] at hg; exact absurd hg (List.not_mem_nil g)
  | x :: xs =>
    rw [chunksSpec_cons] at hg
    rcases List.mem_cons.mp hg with h | h
    · subst h; exact List.cons_ne_nil _ _
    · exact chunksSpec_ne_nil c (xs.drop (c - 1)) g h
termination_by l.length
decreasing_by simp only [List.length_drop, List.length_cons]; omega

theorem chunksSpec_length_le (c : ℕ) (hc : 0 < c) (l : List String)
    (g : List String) (hg : g ∈ chunksSpec c l) : g.length ≤ c := by
  match l with
  | [] => rw [chunksSpec_nil] at hg; exact absurd hg (List.not_mem_nil g)
  | x :: xs =>
    rw [chunksSpec_cons] at hg
    rcases List.mem_cons.mp hg with h | h
    · subst h
      have := List.length_take_le (c - 1) xs
      simp only [List.length_cons]
      omega
    · exact chunksSpec_length_le c hc (xs.drop (c - 1)) g h
termination_by l.length
decreasing_by simp only [List.length_drop, List.length_cons]; omega

theorem chunksSpec_dropLast_length (c : ℕ) (hc : 0 < c) (l : List String)
    (g : List String) (hg : g ∈ (chunksSpec c l).dropLast) : g.length = c := by
  match l with
  | [] => rw [chunksSpec_nil] at hg; exact absurd hg (List.not_mem_nil g)
  | x :: xs =>
    rw [chunksSpec_cons] at hg
    cases hrest : chunksSpec c (xs.drop (c - 1)) with
    | nil =>
      rw [hrest] at hg
      exact absurd hg (List.not_mem_nil g)
    | cons r rs =>
      rw [hrest, List.dropLast_cons_of_ne_nil (List.cons_ne_nil r rs)] at hg
      rcases List.mem_cons.mp hg with h | h
      · subst h
        have hne : xs.drop (c - 1) ≠ [] := by
          intro hnil
          rw [hnil, chunksSpec_nil] at hrest
          exact List.cons_ne_nil r rs hrest.symm
        have hlen : c - 1 < xs.length := by
          by_contra hle
          exact hne (List.drop_eq_nil_of_le (by omega))
        simp only [List.length_cons, List.length_take]
        omega
      · rw [← hrest] at h
        exact chunksSpec_dropLast_length c hc (xs.drop (c - 1)) g h
termination_by l.length
decreasing_by simp only [List.length_drop, List.length_cons]; omega

theorem chunksSpec_length_eq (c : ℕ) (hc : 0 < c) (l : List String) :
    (chunksSpec c l).length = ceilDiv l.length c := by
  match l with
  | [] =>
    rw [chunksSpec_nil]
    unfold ceilDiv
    simp only [List.length_nil, Nat.zero_add]
    rw [Nat.div_eq_of_lt (by omega)]
  | x :: xs =>
    rw [chunksSpec_cons]
    have ih := chunksSpec_length_eq c hc (xs.drop (c - 1))
    simp only [List.length_cons, ih, List.length_drop]
    unfold ceilDiv
    rcases le_or_lt (xs.length + 1) c with h | h
    · have h0 : xs.length - (c - 1) = 0 := by omega
      rw [h0, Nat.zero_add, Nat.div_eq_of_lt (by omega),
        show xs.length + 1 + c - 1 = xs.length + c by omega,
        Nat.add_div_right _ hc, Nat.div_eq_of_lt (by omega)]
    · rw [show xs.length - (c - 1) + c - 1 = xs.length by omega,
        show xs.length + 1 + c - 1 = xs.length + c by omega,
        Nat.add_div_right _ hc]
termination_by l.length
decreasing_by simp only [List.length_drop, List.length_cons]; omega

theorem le_mul_ceilDiv (a b : ℕ) (hb : 0 < b) : a ≤ b * ceilDiv a b := by
  unfold ceilDiv
  have hdm := Nat.div_add_mod (a + b - 1) b
  have hml : (a + b - 1) % b < b := Nat.mod_lt _ hb
  generalize b * ((a + b - 1) / b) = t at hdm ⊢
  omega

theorem mul_ceilDiv_le (a b : ℕ) (_hb : 0 < b) :
    b * ceilDiv a b ≤ a + b - 1 := by
  unfold ceilDiv
  have hdm := Nat.div_add_mod (a + b - 1) b
  generalize b * ((a + b - 1) / b) = t at hdm ⊢
  omega

theorem ceilDiv_pos (a b : ℕ) (ha : 0 < a) (hb : 0 < b) :
    0 < ceilDiv a b := by
  unfold ceilDiv
  have h1 : 1 ≤ (a + b - 1) / b :=
    (Nat.le_div_iff_mul_le hb).mpr (by omega)
  omega

theorem ceilDiv_ceilDiv_le (a n : ℕ) (hn : 0 < n) :
    ceilDiv a (ceilDiv a n) ≤ n := by
  rcases Nat.eq_zero_or_pos a with ha | ha
  · subst ha
    have h0 : ceilDiv 0 n = 0 := by
      unfold ceilDiv
      rw [Nat.zero_add, Nat.div_eq_of_lt (by omega)]
    rw [h0]
    unfold ceilDiv
    simp
  · have hc : 0 < ceilDiv a n := ceilDiv_pos a n ha hn
    have hna : a ≤ n * ceilDiv a n := le_mul_ceilDiv a n hn
    generalize hcv : ceilDiv a n = c at hc hna
    unfold ceilDiv
    rw [← Nat.lt_succ_iff, Nat.div_lt_iff_lt_mul hc, Nat.succ_mul]
    have : (n + 1) * c = n * c + c := by ring
    generalize n * c = t at hna ⊢
    omega

/-- `Math.ceil(L / n)` for naturals, computed through ℚ as the source
does through JS numbers, equals natural ceiling division. -/
theorem toNat_ceil_natCast_div (L n : ℕ) (hn : 0 < n) :
    (⌈(L : ℚ) / (n : ℚ)⌉).toNat = ceilDiv L n := by
  have hn' : (0 : ℚ) < (n : ℚ) := by exact_mod_cast hn
  have hdm := Nat.div_add_mod (L + n - 1) n
  have hml : (L + n - 1) % n < n := Nat.mod_lt _ hn
  have h1 : L ≤ n * ceilDiv L n := le_mul_ceilDiv L n hn
  have h2 : n * ceilDiv L n ≤ L + n - 1 := mul_ceilDiv_le L n hn
  have h2' : n * ceilDiv L n < L + n := by omega
  have hceil : ⌈(L : ℚ) / (n : ℚ)⌉ = ((ceilDiv L n : ℕ) : ℤ) := by
    rw [Int.ceil_eq_iff]
    constructor
    · rw [lt_div_iff₀ hn']
      have h3 : ((n * ceilDiv L n : ℕ) : ℚ) < ((L + n : ℕ) : ℚ) := by
        exact_mod_cast h2'
      push_cast at h3 ⊢
      linarith
    · rw [div_le_iff₀ hn']
      have h3 : ((L : ℕ) : ℚ) ≤ ((n * ceilDiv L n : ℕ) : ℚ) := by
        exact_mod_cast h1
      push_cast at h3 ⊢
      linarith
  rw [hceil, Int.toNat_natCast]

/-- C1: for every list of test paths and every positive integer count,
`createTestGroups` evaluates to the spec-side contiguous chunking with
chunk size `ceil(length / count)`, each chunk joined with a literal comma;
the chunks partition the input in original order, none is empty, every
chunk except possibly the last has exactly the chunk size (the last is no
longer than it), and the number of groups is `ceil(length / chunkSize)`,
which is at most `count`. -/
theorem createTestGroups_partition (paths : List String) (n : ℕ)
    (hn : 0 < n) :
    createTestGroups (JSNumber.num (n : ℚ)) paths
        = (chunksSpec (ceilDiv paths.length n) paths).map
            (fun g => String.intercalate "," g)
      ∧ (chunksSpec (ceilDiv paths.length n) paths).flatten = paths
      ∧ (∀ g ∈ chunksSpec (ceilDiv paths.length n) paths,
           g ≠ [] ∧ g.length ≤ ceilDiv paths.length n)
      ∧ (∀ g ∈ (chunksSpec (ceilDiv paths.length n) paths).dropLast,
           g.length = ceilDiv paths.length n)
      ∧ (chunksSpec (ceilDiv paths.length n) paths).length
          = ceilDiv paths.length (ceilDiv paths.length n)
      ∧ ceilDiv paths.length (ceilDiv paths.length n) ≤ n := by
  have hq : ¬((n : ℚ) ≤ 0) := by
    rw [not_le]
    exact_mod_cast hn
  have hmain : createTestGroups (JSNumber.num (n : ℚ)) paths
      = (chunksSpec (ceilDiv paths.length n) paths).map
          (fun g => String.intercalate "," g) := by
    simp only [createTestGroups]
    rw [if_neg hq, toNat_ceil_natCast_div paths.length n hn]
    rcases eq_or_ne paths [] with hp | hp
    · subst hp
      simp [chunksSpec_nil]
    · have hc : 0 < ceilDiv paths.length n :=
        ceilDiv_pos _ _ (List.length_pos.mpr hp) hn
      rw [foldl_addToGroups_enum _ hc]
  refine ⟨hmain, chunksSpec_flatten _ _, ?_, ?_, ?_,
    ceilDiv_ceilDiv_le _ _ hn⟩
  · intro g hg
    rcases eq_or_ne paths [] with hp | hp
    · subst hp
      rw [chunksSpec_nil] at hg
      exact absurd hg (List.not_mem_nil g)
    · have hc := ceilDiv_pos paths.length n (List.length_pos.mpr hp) hn
      exact ⟨chunksSpec_ne_nil _ _ _ hg, chunksSpec_length_le _ hc _ _ hg⟩
  · intro g hg
    rcases eq_or_ne paths [] with hp | hp
    · subst hp
      rw [chunksSpec_nil] at hg
      simp at hg
    · have hc := ceilDiv_pos paths.length n (List.length_pos.mpr hp) hn
      exact chunksSpec_dropLast_length _ hc _ _ hg
  · rcases eq_or_ne paths [] with hp | hp
    · subst hp
      rw [chunksSpec_nil]
      have h0 : ceilDiv (List.length ([] : List String)) n = 0 := by
        unfold ceilDiv
        simp only [List.length_nil, Nat.zero_add]
        exact Nat.div_eq_of_lt (by omega)
      rw [h0]
      decide
    · have hc := ceilDiv_pos paths.length n (List.length_pos.mpr hp) hn
      exact chunksSpec_length_eq _ hc _

/-- Witness for C1 at the spec's own P6 example: five paths with runner
count 2 (chunk size equals ceil(5 / 2) = 3). -/
theorem createTestGroups_partition_witness :
    (0 : ℕ) < 2
    ∧ (createTestGroups (JSNumber.num ((2 : ℕ) : ℚ)) ["p1", "p2", "p3", "p4", "p5"]
          = (chunksSpec (ceilDiv (List.length ["p1", "p2", "p3", "p4", "p5"]) 2)
              ["p1", "p2", "p3", "p4", "p5"]).map
              (fun g => String.intercalate "," g)
        ∧ (chunksSpec (ceilDiv (List.length ["p1", "p2", "p3", "p4", "p5"]) 2)
            ["p1", "p2", "p3", "p4", "p5"]).flatten = ["p1", "p2", "p3", "p4", "p5"]
        ∧ (∀ g ∈ chunksSpec (ceilDiv (List.length ["p1", "p2", "p3", "p4", "p5"]) 2)
              ["p1", "p2", "p3", "p4", "p5"],
             g ≠ [] ∧ g.length ≤ ceilDiv (List.length ["p1", "p2", "p3", "p4", "p5"]) 2)
        ∧ (∀ g ∈ (chunksSpec (ceilDiv (List.length ["p1", "p2", "p3", "p4", "p5"]) 2)
              ["p1", "p2", "p3", "p4", "p5"]).dropLast,
             g.length = ceilDiv (List.length ["p1", "p2", "p3", "p4", "p5"]) 2)
        ∧ (chunksSpec (ceilDiv (List.length ["p1", "p2", "p3", "p4", "p5"]) 2)
            ["p1", "p2", "p3", "p4", "p5"]).length
            = ceilDiv (List.length ["p1", "p2", "p3", "p4", "p5"])
                (ceilDiv (List.length ["p1", "p2", "p3", "p4", "p5"]) 2)
        ∧ ceilDiv (List.length ["p1", "p2", "p3", "p4", "p5"])
            (ceilDiv (List.length ["p1", "p2", "p3", "p4", "p5"]) 2) ≤ 2) :=
  ⟨by decide, createTestGroups_partition ["p1", "p2", "p3", "p4", "p5"] 2 (by decide)⟩

/-- C8 counterexample: 3/2 is positive but not an integer (its floor and
ceiling differ), yet `createTestGroups` does NOT return the paths
unchanged - it groups them with chunk size ceil(3 / (3/2)) = 2,
contradicting the claim that every count that is not a positive integer
is a no-op. -/
theorem createTestGroups_nonintegral_counterexample :
    ⌊(3 : ℚ) / 2⌋ ≠ ⌈(3 : ℚ) / 2⌉
    ∧ ¬((3 : ℚ) / 2 ≤ 0)
    ∧ createTestGroups (JSNumber.num ((3 : ℚ) / 2)) ["a", "b", "c"] = ["a,b", "c"]
    ∧ ["a,b", "c"] ≠ ["a", "b", "c"] := by
  have hf : ⌊(3 : ℚ) / 2⌋ = 1 := by
    rw [Int.floor_eq_iff]
    constructor <;> norm_num
  have hcl : ⌈(3 : ℚ) / 2⌉ = 2 := by
    rw [Int.ceil_eq_iff]
    constructor <;> norm_num
  refine ⟨by rw [hf, hcl]; decide, by norm_num, ?_, by decide⟩
  simp only [createTestGroups]
  rw [if_neg (by norm_num : ¬((3 : ℚ) / 2 ≤ 0))]
  have hv : ((List.length ["a", "b", "c"] : ℕ) : ℚ) / ((3 : ℚ) / 2) = 2 := by
    norm_num
  rw [hv, show ⌈(2 : ℚ)⌉ = 2 from by rw [Int.ceil_eq_iff]; constructor <;> norm_num]
  rfl

/-- C8 amended: the grouping is a no-op exactly for the counts the code's
guard rejects - NaN or a value at most 0; a positive non-integer count is
grouped like any other positive count. -/
theorem createTestGroups_invalid_count (groupCount : JSNumber)
    (tests : List String)
    (h : groupCount = JSNumber.nan
         ∨ ∃ q, groupCount = JSNumber.num q ∧ q ≤ 0) :
    createTestGroups groupCount tests = tests := by
  rcases h with h | ⟨q, hq, hle⟩
  · subst h
    rfl
  · subst hq
    simp only [createTestGroups]
    rw [if_pos hle]

/-- Witness for the amended C8 at count 0 (the parsed value of an unset
`count-runners` input). -/
theorem createTestGroups_invalid_count_witness :
    createTestGroups (JSNumber.num 0) ["a", "b"] = ["a", "b"] :=
  createTestGroups_invalid_count (JSNumber.num 0) ["a", "b"]
    (Or.inr ⟨0, rfl, le_refl 0⟩)

/-! ### Glob and config-locator properties (C10, C7, C5 support) -/

theorem pathJoin_empty_left (b : String) : pathJoin "" b = b := by
  unfold pathJoin
  rw [if_pos rfl]

theorem toIgnoreList_some_arr (l : List String) :
    toIgnoreList (some (SpecPattern.arr l)) = l := rfl

/-- C10: a missing root directory short-circuits `glob` to the empty list
instead of raising, so a discovery rule whose root folder does not exist
yields an empty test list for its category. -/
theorem glob_missing_root (env : Env) (root : String)
    (includePatterns ignorePatterns : List String)
    (wd testFolder : String) (sp : SpecPattern) (esp : Option SpecPattern)
    (h1 : env.existsSync root = false)
    (h2 : env.existsSync (pathJoin wd testFolder) = false) :
    glob env root includePatterns ignorePatterns = []
    ∧ parseTestOfType env wd testFolder sp esp = [] := by
  constructor
  · simp [glob, h1]
  · simp [parseTestOfType, glob, h2]

/-- Witness for C10 on the empty filesystem. -/
theorem glob_missing_root_witness :
    glob envEmpty "/missing" ["**/*.*"] [] = []
    ∧ parseTestOfType envEmpty "/w" "cypress/integration"
        (SpecPattern.str "**/*.*") none = [] :=
  glob_missing_root envEmpty "/missing" ["**/*.*"] [] "/w" "cypress/integration"
    (SpecPattern.str "**/*.*") none rfl rfl

/-- C7: the config locator returns none on zero matches, none on more than
one match, and the unique match joined onto the given working directory
otherwise. -/
theorem getConfigFile_cases (env : Env) (names : List String) (wd : String) :
    (glob env (getWorkingDirectory env wd) names [] = [] →
       getConfigFile env names wd = none)
    ∧ (1 < (glob env (getWorkingDirectory env wd) names []).length →
       getConfigFile env names wd = none)
    ∧ (∀ r, glob env (getWorkingDirectory env wd) names [] = [r] →
       getConfigFile env names wd = some (pathJoin wd r)) := by
  refine ⟨?_, ?_, ?_⟩
  · intro h
    simp only [getConfigFile]
    rw [h]
    simp
  · intro h
    simp only [getConfigFile]
    rw [if_neg (by omega), if_pos h]
  · intro r h
    simp only [getConfigFile]
    rw [h]
    simp

/-- Witness for C7: unique legacy config match. -/
theorem getConfigFile_cases_witness :
    getConfigFile env9NoTests VALID_CONFIG_FILE_NAMES_9 "/w"
      = some (pathJoin "/w" "cypress.json") :=
  (getConfigFile_cases env9NoTests VALID_CONFIG_FILE_NAMES_9 "/w").2.2
    "cypress.json" rfl

theorem mem_foldl_filter (env : Env) (ign : List String) :
    ∀ (start : List String) (f : String),
      f ∈ ign.foldl
            (fun acc p => acc.filter (fun g => !(env.minimatch g p))) start →
      f ∈ start := by
  induction ign with
  | nil => intro start f hf; simpa using hf
  | cons q rest ih =>
    intro start f hf
    rw [List.foldl_cons] at hf
    exact (List.mem_filter.mp (ih _ f hf)).1

theorem mem_foldl_filter_not_matched (env : Env) (ign : List String) :
    ∀ (start : List String) (f : String),
      f ∈ ign.foldl
            (fun acc p => acc.filter (fun g => !(env.minimatch g p))) start →
      ∀ p ∈ ign, env.minimatch f p = false := by
  induction ign with
  | nil =>
    intro start f _ p hp
    exact absurd hp (List.not_mem_nil p)
  | cons q rest ih =>
    intro start f hf p hp
    rw [List.foldl_cons] at hf
    rcases List.mem_cons.mp hp with hpq | hp'
    · subst hpq
      have h1 := mem_foldl_filter env rest _ f hf
      have h2 := (List.mem_filter.mp h1).2
      simpa using h2
    · exact ih _ f hf p hp'

/-- Membership in a `glob` result implies no ignore pattern matches. -/
theorem mem_glob_not_ignored (env : Env) (root : String)
    (includePatterns ignorePatterns : List String) (f : String)
    (hf : f ∈ glob env root includePatterns ignorePatterns) :
    ∀ p ∈ ignorePatterns, env.minimatch f p = false := by
  by_cases he : env.existsSync root = true
  · simp only [glob, if_pos he] at hf
    exact mem_foldl_filter_not_matched env ignorePatterns _ f hf
  · simp only [glob, if_neg he] at hf
    exact absurd hf (List.not_mem_nil f)

/-- The shape of the resolved component exclude list: always the
node-modules default, then the resolved e2e include patterns, then a tail
that is the two snapshot defaults whenever no explicit component exclude
was given. -/
theorem resolvedComponentExcludePattern_shape (config : RawCypressConfig) :
    ∃ rest, resolvedComponentExcludePattern config
        = DEFAULT_EXCLUDE_SPEC_PATTERNS ++ resolvedE2eSpecPattern config ++ rest
      ∧ ((∀ cc, config.component = some cc → cc.excludeSpecPattern = none) →
          "/snapshots/*" ∈ rest ∧ "/image_snapshots/*" ∈ rest) := by
  cases hc : config.component with
  | none =>
    refine ⟨["/snapshots/*", "/image_snapshots/*"], ?_, fun _ => by simp⟩
    simp only [resolvedComponentExcludePattern, hc]
  | some cc =>
    cases he : cc.excludeSpecPattern with
    | none =>
      refine ⟨["/snapshots/*", "/image_snapshots/*"], ?_, fun _ => by simp⟩
      simp only [resolvedComponentExcludePattern, hc, he]
    | some p =>
      refine ⟨specPatternToList p, ?_, fun hnone => ?_⟩
      · simp only [resolvedComponentExcludePattern, hc, he]
      · have h2 := hnone cc rfl
        rw [he] at h2
        exact absurd h2 (Option.some_ne_none p)

/-- C5: in the modern schema the resolved component exclude pattern list
contains every resolved e2e include pattern (plus the node-modules
infrastructure pattern, and the two snapshot-directory patterns when no
explicit component exclude is given), and consequently any file matched by
some e2e include pattern is excluded from the component category result
computed by `parseTests`. -/
theorem component_excludes_contain_e2e (m : ModuleExport) (env : Env)
    (wd f : String) :
    (∀ p ∈ (resolveConfig m).e2e.specPattern,
        p ∈ (resolveConfig m).component.excludeSpecPattern)
    ∧ "**/node_modules/**" ∈ (resolveConfig m).component.excludeSpecPattern
    ∧ ((∀ cc, (unwrapModule m).component = some cc →
          cc.excludeSpecPattern = none) →
        "/snapshots/*" ∈ (resolveConfig m).component.excludeSpecPattern
        ∧ "/image_snapshots/*" ∈ (resolveConfig m).component.excludeSpecPattern)
    ∧ ((∃ p ∈ (resolveConfig m).e2e.specPattern, env.minimatch f p = true) →
        f ∉ parseTestOfType env wd ""
              (SpecPattern.arr (resolveConfig m).component.specPattern)
              (some (SpecPattern.arr
                (resolveConfig m).component.excludeSpecPattern))) := by
  obtain ⟨rest, hshape, hsnap⟩ :=
    resolvedComponentExcludePattern_shape (unwrapModule m)
  have hcompEx : (resolveConfig m).component.excludeSpecPattern
      = resolvedComponentExcludePattern (unwrapModule m) := rfl
  have he2e : (resolveConfig m).e2e.specPattern
      = resolvedE2eSpecPattern (unwrapModule m) := rfl
  refine ⟨?_, ?_, ?_, ?_⟩
  · intro p hp
    rw [hcompEx, hshape]
    rw [he2e] at hp
    exact List.mem_append.mpr (Or.inl (List.mem_append.mpr (Or.inr hp)))
  · rw [hcompEx, hshape]
    refine List.mem_append.mpr (Or.inl (List.mem_append.mpr (Or.inl ?_)))
    simp [DEFAULT_EXCLUDE_SPEC_PATTERNS]
  · intro hnone
    obtain ⟨h1, h2⟩ := hsnap hnone
    rw [hcompEx, hshape]
    exact ⟨List.mem_append.mpr (Or.inr h1), List.mem_append.mpr (Or.inr h2)⟩
  · rintro ⟨p, hp, hmatch⟩ hf
    simp only [parseTestOfType, toIgnoreList_some_arr] at hf
    obtain ⟨g, hg, hgf⟩ := List.mem_map.mp hf
    rw [pathJoin_empty_left] at hgf
    subst hgf
    have hpmem : p ∈ (resolveConfig m).component.excludeSpecPattern := by
      rw [hcompEx, hshape]
      rw [he2e] at hp
      exact List.mem_append.mpr (Or.inl (List.mem_append.mpr (Or.inr hp)))
    have hnm := mem_glob_not_ignored env (pathJoin wd "") _ _ g hg p hpmem
    rw [hmatch] at hnm
    exact absurd hnm (by decide)

/-- Witness for C5: with the all-default modern config the default e2e
pattern is in the component excludes, and in a concrete environment a file
matched by the e2e pattern is absent from the component result. -/
theorem component_excludes_contain_e2e_witness :
    "cypress/e2e/**/*.cy.\x7bjs,jsx,ts,tsx\x7d"
      ∈ (resolveConfig (ModuleExport.plain ⟨none, none⟩)).component.excludeSpecPattern
    ∧ "cypress.config.ts" ∉ parseTestOfType envModern "/w" ""
        (SpecPattern.arr
          (resolveConfig (ModuleExport.plain ⟨none, none⟩)).component.specPattern)
        (some (SpecPattern.arr
          (resolveConfig (ModuleExport.plain ⟨none, none⟩)).component.excludeSpecPattern)) :=
  ⟨(component_excludes_contain_e2e (ModuleExport.plain ⟨none, none⟩)
      envEmpty "/w" "f").1
      "cypress/e2e/**/*.cy.\x7bjs,jsx,ts,tsx\x7d" (by decide),
   (component_excludes_contain_e2e (ModuleExport.plain ⟨none, none⟩)
      envModern "/w" "cypress.config.ts").2.2.2
      ⟨"cypress/e2e/**/*.cy.\x7bjs,jsx,ts,tsx\x7d", by decide, rfl⟩⟩

/-! ### Facade and orchestrator properties (C2, C3, C4, C6) -/

/-- With a selected adapter, `parse` reduces to the no-tests check and the
output-emission code over that adapter's `parseTests` result. -/
theorem parse_eq (env : Env) (wd : String) (cnt : JSNumber) (k : ParserKind)
    (h : parserFactory env wd = some k) :
    parse env wd cnt =
      (if ((parseTestsOf env k wd).integrationTests.length == 0)
          && (match (parseTestsOf env k wd).componentTests with
              | none => true
              | some componentTests => componentTests.length == 0) then
        ⟨some "No tests found", []⟩
      else
        match (parseTestsOf env k wd).componentTests with
        | none => ⟨none, [("integration-tests",
            createTestGroups cnt (parseTestsOf env k wd).integrationTests)]⟩
        | some componentTests =>
          ⟨none, [("integration-tests",
              createTestGroups cnt (parseTestsOf env k wd).integrationTests),
            ("component-tests", createTestGroups cnt componentTests)]⟩) := by
  unfold parse
  rw [h]

/-- The boolean no-tests condition of `parse` is exactly "integration
empty and component absent or empty". -/
theorem noTestsCond_eq (tf : TestFiles) :
    (((tf.integrationTests.length == 0)
      && (match tf.componentTests with
          | none => true
          | some componentTests => componentTests.length == 0)) = true)
    ↔ (tf.integrationTests = []
       ∧ (tf.componentTests = none ∨ tf.componentTests = some [])) := by
  cases tf with
  | mk il cl =>
    cases cl with
    | none => simp [List.length_eq_zero]
    | some l => simp [List.length_eq_zero]

/-- C2: adapter selection tries cypress.config.ts, then
cypress.config.js/mjs/cjs, then cypress.json, in that order, and the first
schema whose config file is present wins; when none is present the run
fails with exactly "No supported Cypress config file found." and emits no
outputs. -/
theorem parserFactory_precedence (env : Env) (wd : String) (cnt : JSNumber) :
    (parserFactory env wd = some ParserKind.ts ↔
       hasConfigFile env ["cypress.config.ts"] wd = true)
    ∧ (parserFactory env wd = some ParserKind.js ↔
       hasConfigFile env ["cypress.config.ts"] wd = false
       ∧ hasConfigFile env
           ["cypress.config.js", "cypress.config.mjs", "cypress.config.cjs"] wd
           = true)
    ∧ (parserFactory env wd = some ParserKind.cypress9 ↔
       hasConfigFile env ["cypress.config.ts"] wd = false
       ∧ hasConfigFile env
           ["cypress.config.js", "cypress.config.mjs", "cypress.config.cjs"] wd
           = false
       ∧ hasConfigFile env ["cypress.json"] wd = true)
    ∧ (parserFactory env wd = none ↔
       hasConfigFile env ["cypress.config.ts"] wd = false
       ∧ hasConfigFile env
           ["cypress.config.js", "cypress.config.mjs", "cypress.config.cjs"] wd
           = false
       ∧ hasConfigFile env ["cypress.json"] wd = false)
    ∧ (parserFactory env wd = none →
       parse env wd cnt
         = ⟨some "No supported Cypress config file found.", []⟩) := by
  have hts : VALID_CONFIG_FILE_NAMES_TS = ["cypress.config.ts"] := rfl
  have hjs : VALID_CONFIG_FILE_NAMES_JS
      = ["cypress.config.js", "cypress.config.mjs", "cypress.config.cjs"] := rfl
  have h9 : VALID_CONFIG_FILE_NAMES_9 = ["cypress.json"] := rfl
  rw [← hts, ← hjs, ← h9]
  cases hb1 : hasConfigFile env VALID_CONFIG_FILE_NAMES_TS wd
  <;> cases hb2 : hasConfigFile env VALID_CONFIG_FILE_NAMES_JS wd
  <;> cases hb3 : hasConfigFile env VALID_CONFIG_FILE_NAMES_9 wd
  <;> simp [parserFactory, parse, hb1, hb2, hb3]

/-- Witness for C2 on the empty filesystem: no adapter, exact failure
message, no outputs. -/
theorem parserFactory_precedence_witness :
    parse envEmpty "/w" (JSNumber.num 0)
      = ⟨some "No supported Cypress config file found.", []⟩ :=
  (parserFactory_precedence envEmpty "/w" (JSNumber.num 0)).2.2.2.2 rfl

/-- C3: with an adapter selected, the run fails with exactly "No tests
found" and no outputs iff the integration list is empty and the component
list is absent or empty; otherwise no failure is signalled and outputs are
emitted. -/
theorem parse_no_tests_characterization (env : Env) (wd : String)
    (cnt : JSNumber) (k : ParserKind)
    (h : parserFactory env wd = some k) :
    (parse env wd cnt = ⟨some "No tests found", []⟩ ↔
       ((parseTestsOf env k wd).integrationTests = []
        ∧ ((parseTestsOf env k wd).componentTests = none
           ∨ (parseTestsOf env k wd).componentTests = some [])))
    ∧ (¬((parseTestsOf env k wd).integrationTests = []
         ∧ ((parseTestsOf env k wd).componentTests = none
            ∨ (parseTestsOf env k wd).componentTests = some [])) →
       (parse env wd cnt).failed = none
       ∧ (parse env wd cnt).outputs ≠ []) := by
  rw [parse_eq env wd cnt k h]
  constructor
  · by_cases hb : (((parseTestsOf env k wd).integrationTests.length == 0)
        && (match (parseTestsOf env k wd).componentTests with
            | none => true
            | some componentTests => componentTests.length == 0)) = true
    · rw [if_pos hb]
      exact iff_of_true rfl ((noTestsCond_eq _).mp hb)
    · rw [if_neg hb]
      refine iff_of_false ?_ (fun hp => hb ((noTestsCond_eq _).mpr hp))
      cases hc : (parseTestsOf env k wd).componentTests with
      | none => intro hcontra; simp at hcontra
      | some l => intro hcontra; simp at hcontra
  · intro hnp
    have hb : ¬((((parseTestsOf env k wd).integrationTests.length == 0)
        && (match (parseTestsOf env k wd).componentTests with
            | none => true
            | some componentTests => componentTests.length == 0)) = true) :=
      fun hb => hnp ((noTestsCond_eq _).mp hb)
    rw [if_neg hb]
    cases hc : (parseTestsOf env k wd).componentTests with
    | none => exact ⟨rfl, by simp⟩
    | some l => exact ⟨rfl, by simp⟩

/-- Witness for C3: the legacy adapter selected, both categories empty,
exact "No tests found" failure. -/
theorem parse_no_tests_characterization_witness :
    parse env9NoTests "/w" (JSNumber.num 0) = ⟨some "No tests found", []⟩ :=
  ((parse_no_tests_characterization env9NoTests "/w" (JSNumber.num 0)
      ParserKind.cypress9 rfl).1).mpr ⟨rfl, Or.inl rfl⟩

/-- C4: any exception raised while loading or parsing the configuration is
caught by `parseTests`, which returns the all-empty TestFiles
(integration empty, component present-but-empty) instead of propagating,
for all three adapters. -/
theorem parseTests_absorbs_load_errors (env : Env) (wd : String) (e : String) :
    (cypressTSLoadConfig env wd = Except.error e →
       cypressConfigParseTests env wd (cypressTSLoadConfig env wd)
         = ⟨[], some []⟩)
    ∧ (cypressJSLoadConfig env wd = Except.error e →
       cypressConfigParseTests env wd (cypressJSLoadConfig env wd)
         = ⟨[], some []⟩)
    ∧ (cypress9LoadConfig env wd = Except.error e →
       cypress9ParseTests env wd = ⟨[], some []⟩) := by
  refine ⟨fun h => ?_, fun h => ?_, fun h => ?_⟩
  · rw [h]
    rfl
  · rw [h]
    rfl
  · unfold cypress9ParseTests
    rw [h]

/-- Witness for C4: the TS adapter with no config file present errors and
degrades to the all-empty TestFiles. -/
theorem parseTests_absorbs_load_errors_witness :
    cypressTSLoadConfig envEmpty "/w"
      = Except.error "no supported config file found."
    ∧ cypressConfigParseTests envEmpty "/w" (cypressTSLoadConfig envEmpty "/w")
      = ⟨[], some []⟩ :=
  ⟨rfl, (parseTests_absorbs_load_errors envEmpty "/w"
      "no supported config file found.").1 rfl⟩

theorem cypressConfigParseTests_component_some (env : Env) (wd : String)
    (loadResult : Except String CypressConfig) :
    ∃ l, (cypressConfigParseTests env wd loadResult).componentTests = some l := by
  cases loadResult with
  | error e => exact ⟨[], rfl⟩
  | ok c => exact ⟨_, rfl⟩

theorem parse_component_none_not_mem (env : Env) (wd : String)
    (cnt : JSNumber) (k : ParserKind)
    (hk : parserFactory env wd = some k)
    (hnone : (parseTestsOf env k wd).componentTests = none) :
    ∀ v, ("component-tests", v) ∉ (parse env wd cnt).outputs := by
  intro v
  rw [parse_eq env wd cnt k hk, hnone]
  dsimp only
  by_cases hb : ((((parseTestsOf env k wd).integrationTests.length == 0)
      && true) = true)
  · rw [if_pos hb]
    simp
  · rw [if_neg hb]
    simp

theorem parse_component_some_mem (env : Env) (wd : String) (cnt : JSNumber)
    (k : ParserKind) (l : List String)
    (hk : parserFactory env wd = some k)
    (hl : (parseTestsOf env k wd).componentTests = some l)
    (hfail : (parse env wd cnt).failed = none) :
    ("component-tests", createTestGroups cnt l) ∈ (parse env wd cnt).outputs := by
  rw [parse_eq env wd cnt k hk, hl] at hfail ⊢
  dsimp only at hfail ⊢
  by_cases hb : ((((parseTestsOf env k wd).integrationTests.length == 0)
      && (l.length == 0)) = true)
  · rw [if_pos hb] at hfail
    simp at hfail
  · rw [if_neg hb]
    simp

/-- C6: in a legacy run whose merged config has no `componentFolder`, the
component-tests output is never emitted; in a modern run that does not
fail, the component-tests output is always emitted (its test list can be
the empty array). -/
theorem component_output_presence (env : Env) (wd : String) (cnt : JSNumber) :
    (∀ cfg, parserFactory env wd = some ParserKind.cypress9 →
       cypress9LoadConfig env (getWorkingDirectory env wd) = Except.ok cfg →
       cfg.componentFolder = none →
       ∀ v, ("component-tests", v) ∉ (parse env wd cnt).outputs)
    ∧ (∀ k, (k = ParserKind.ts ∨ k = ParserKind.js) →
       parserFactory env wd = some k →
       (parse env wd cnt).failed = none →
       ∃ v, ("component-tests", v) ∈ (parse env wd cnt).outputs) := by
  constructor
  · intro cfg hk hok hnone v
    have htf : (parseTestsOf env ParserKind.cypress9 wd).componentTests = none := by
      show (cypress9ParseTests env (getWorkingDirectory env wd)).componentTests
        = none
      unfold cypress9ParseTests
      rw [hok]
      dsimp only
      rw [hnone]
      rfl
    exact parse_component_none_not_mem env wd cnt ParserKind.cypress9 hk htf v
  · intro k hk01 hk hfail
    have hsome : ∃ l, (parseTestsOf env k wd).componentTests = some l := by
      rcases hk01 with rfl | rfl
      · exact cypressConfigParseTests_component_some env
          (getWorkingDirectory env wd)
          (cypressTSLoadConfig env (getWorkingDirectory env wd))
      · exact cypressConfigParseTests_component_some env
          (getWorkingDirectory env wd)
          (cypressJSLoadConfig env (getWorkingDirectory env wd))
    obtain ⟨l, hl⟩ := hsome
    exact ⟨createTestGroups cnt l,
      parse_component_some_mem env wd cnt k l hk hl hfail⟩

/-- Witness for C6: a successful legacy run without componentFolder emits
no component output; a successful modern run emits one. -/
theorem component_output_presence_witness :
    (∀ v, ("component-tests", v)
        ∉ (parse env9WithTests "/w" (JSNumber.num 0)).outputs)
    ∧ (∃ v, ("component-tests", v)
        ∈ (parse envModern "/w" (JSNumber.num 0)).outputs) :=
  ⟨fun v => (component_output_presence env9WithTests "/w" (JSNumber.num 0)).1
      ⟨none, none, "cypress/integration", SpecPattern.str "**/*.*"⟩ rfl rfl rfl v,
   (component_output_presence envModern "/w" (JSNumber.num 0)).2
      ParserKind.ts (Or.inl rfl) rfl rfl⟩

/-! ### Include-pattern non-emptiness (C9) -/

/-- C9 counterexample: the JS adapter accepts (returns ok for) a config
whose `e2e.specPattern` is explicitly the empty array, and default
resolution passes the empty include-pattern list straight through, so a
DiscoveryRule with empty includePatterns is produced. -/
theorem includePatterns_empty_counterexample :
    cypressJSLoadConfig envEmptyPattern "/w"
      = Except.ok (resolveConfig
          (ModuleExport.plain ⟨some ⟨some (SpecPattern.arr []), none⟩, none⟩))
    ∧ (resolveConfig
        (ModuleExport.plain
          ⟨some ⟨some (SpecPattern.arr []), none⟩, none⟩)).e2e.specPattern
      = [] :=
  ⟨rfl, rfl⟩

theorem resolvedE2eSpecPattern_ne_nil (config : RawCypressConfig)
    (h : ∀ cc, config.e2e = some cc →
       cc.specPattern ≠ some (SpecPattern.arr [])) :
    resolvedE2eSpecPattern config ≠ [] := by
  cases hc : config.e2e with
  | none => simp [resolvedE2eSpecPattern, hc, DEFAULT_E2E_SPEC_PATTERN]
  | some cc =>
    cases hp : cc.specPattern with
    | none => simp [resolvedE2eSpecPattern, hc, hp, DEFAULT_E2E_SPEC_PATTERN]
    | some p =>
      cases p with
      | str s => simp [resolvedE2eSpecPattern, hc, hp, specPatternToList]
      | arr l =>
        have hne := h cc hc
        rw [hp] at hne
        have hl : l ≠ [] := fun he => hne (by rw [he])
        simpa [resolvedE2eSpecPattern, hc, hp, specPatternToList] using hl

theorem resolvedComponentSpecPattern_ne_nil (config : RawCypressConfig)
    (h : ∀ cc, config.component = some cc →
       cc.specPattern ≠ some (SpecPattern.arr [])) :
    resolvedComponentSpecPattern config ≠ [] := by
  cases hc : config.component with
  | none =>
    simp [resolvedComponentSpecPattern, hc, DEFAULT_COMPONENT_SPEC_PATTERN]
  | some cc =>
    cases hp : cc.specPattern with
    | none =>
      simp [resolvedComponentSpecPattern, hc, hp, DEFAULT_COMPONENT_SPEC_PATTERN]
    | some p =>
      cases p with
      | str s => simp [resolvedComponentSpecPattern, hc, hp, specPatternToList]
      | arr l =>
        have hne := h cc hc
        rw [hp] at hne
        have hl : l ≠ [] := fun he => hne (by rw [he])
        simpa [resolvedComponentSpecPattern, hc, hp, specPatternToList] using hl

/-- C9 amended: after default resolution the includePatterns of every
DiscoveryRule are non-empty PROVIDED every explicitly given include
pattern field (modern `specPattern`, legacy `testFiles`) is a string or a
non-empty list - an explicitly empty pattern list is passed through and
violates the invariant (see the counterexample); excludePatterns may be
empty (the legacy ignore list is empty when `ignoreTestFiles` is absent). -/
theorem includePatterns_nonempty_amended (m : ModuleExport)
    (raw : Cypress9RawConfig)
    (h1 : ∀ cc, (unwrapModule m).e2e = some cc →
       cc.specPattern ≠ some (SpecPattern.arr []))
    (h2 : ∀ cc, (unwrapModule m).component = some cc →
       cc.specPattern ≠ some (SpecPattern.arr []))
    (h3 : raw.testFiles ≠ some (SpecPattern.arr [])) :
    (resolveConfig m).e2e.specPattern ≠ []
    ∧ (resolveConfig m).component.specPattern ≠ []
    ∧ specPatternToList (mergeCypress9Defaults raw).testFiles ≠ []
    ∧ toIgnoreList none = [] := by
  refine ⟨resolvedE2eSpecPattern_ne_nil (unwrapModule m) h1,
    resolvedComponentSpecPattern_ne_nil (unwrapModule m) h2, ?_, rfl⟩
  cases ht : raw.testFiles with
  | none => simp [mergeCypress9Defaults, ht, specPatternToList]
  | some p =>
    cases p with
    | str s => simp [mergeCypress9Defaults, ht, specPatternToList]
    | arr l =>
      have hl : l ≠ [] := fun he => h3 (by rw [ht, he])
      simpa [mergeCypress9Defaults, ht, specPatternToList] using hl

/-- Witness for the amended C9 at the all-default configs. -/
theorem includePatterns_nonempty_amended_witness :
    (resolveConfig (ModuleExport.plain ⟨none, none⟩)).e2e.specPattern ≠ []
    ∧ (resolveConfig (ModuleExport.plain ⟨none, none⟩)).component.specPattern ≠ []
    ∧ specPatternToList
        (mergeCypress9Defaults ⟨none, none, none, none⟩).testFiles ≠ []
    ∧ toIgnoreList none = [] :=
  includePatterns_nonempty_amended (ModuleExport.plain ⟨none, none⟩)
    ⟨none, none, none, none⟩
    (fun _ h => nomatch h) (fun _ h => nomatch h) (fun h => nomatch h)
